import Mathlib

/-
Shallow embedding of the FlickerHalucinate strobe engine
(src/android/app/src/main/java/com/flicker/neural/plugins/StrobeEngine.java and
StrobeEffect.java).

Modelling conventions:
* Java `long` millisecond durations and wall-clock times become `Int`.
* Java `double` frequency and intensity become `ℚ` (exact values; none of the
  verified claims depends on IEEE rounding).  The Java cast
  `(long)(1000.0 / frequency)` truncates a positive value to its floor, which
  for the exact rational `frequency = num/den` is `1000 * den / num` in
  integer division; `getPeriodMs` below computes exactly that.
* The dedicated `HandlerThread` becomes an explicit scheduler: the engine holds
  at most one pending callback (the Java code keeps a single
  `currentStrobeRunnable` pending at a time) together with its absolute fire
  time; `step` fires it, advancing the clock to the fire time.  External calls
  (`enqueue`, `pause`, ...) happen at a caller-chosen clock value, set with
  `atTime`.
* Every listener notification and every hardware command is recorded in an
  `events` trace, in the order the Java code performs them; `Log.d`/`Log.e`
  calls are not listener notifications and are not recorded.
* `setTorchMode` is assumed to succeed for the engine-level runs; the retry
  loop of `forceOff` (the one place whose behaviour under hardware failure is
  claimed) is modelled separately with an explicit outcome oracle.
-/

namespace Flicker

/-- Effect kinds, from `StrobeEffect.EffectType`. -/
inductive EffectType
  | ON
  | OFF
  | STROBE
  | PULSE
deriving DecidableEq, Repr

/-- One queued effect, from class `StrobeEffect` (fields `type`, `durationMs`,
`frequency`, `intensity`, `id`). -/
structure StrobeEffect where
  type : EffectType
  durationMs : Int
  frequency : ℚ
  intensity : ℚ
  id : String
deriving DecidableEq, Repr

/-- Source `StrobeEffect.getPeriodMs`: `if (frequency <= 0) return 0; return
(long)(1000.0 / frequency);`.  The cast truncates the positive real
`1000/frequency` to its floor, i.e. `1000 * den / num` for the exact rational
frequency. -/
def StrobeEffect.getPeriodMs (e : StrobeEffect) : Int :=
  if e.frequency ≤ 0 then 0
  else 1000 * (e.frequency.den : Int) / e.frequency.num

/-- Source `StrobeEffect.getHalfPeriodMs`: `return getPeriodMs() / 2;` (Java long
division; both operands are nonnegative here, so it agrees with `Int` `/`). -/
def StrobeEffect.getHalfPeriodMs (e : StrobeEffect) : Int :=
  e.getPeriodMs / 2

/-- Name of a Java enum constant, `EffectType.name()`. -/
def EffectType.name : EffectType → String
  | .ON => "ON"
  | .OFF => "OFF"
  | .STROBE => "STROBE"
  | .PULSE => "PULSE"

/-- Source `EffectType.valueOf`: succeeds exactly on the four enum constant names
(Java throws `IllegalArgumentException` otherwise, modelled as `none`). -/
def EffectType.valueOf : String → Option EffectType
  | "ON" => some .ON
  | "OFF" => some .OFF
  | "STROBE" => some .STROBE
  | "PULSE" => some .PULSE
  | _ => none

/-- JSON values as used by `StrobeEffect.toJson`/`fromJson` (org.json):
strings, longs and doubles. -/
inductive JVal
  | jstr (s : String)
  | jint (n : Int)
  | jnum (q : ℚ)
deriving DecidableEq, Repr

/-- A JSON object: association list of keys to values. -/
def JObj := List (String × JVal)

/-- Key lookup on a JSON object. -/
def jget (o : JObj) (k : String) : Option JVal :=
  (o.find? (fun p => p.1 == k)).map Prod.snd

/-- Lookup test, `JSONObject.has`. -/
def jhas (o : JObj) (k : String) : Bool :=
  (jget o k).isSome

/-- Accessor `JSONObject.optString(key, default)`: default when the key is absent. -/
def joptString (o : JObj) (k d : String) : String :=
  match jget o k with
  | some (.jstr s) => s
  | _ => d

/-- Java `(long)` cast of an exact rational: truncation toward zero. -/
def jlongOfRat (q : ℚ) : Int :=
  if q < 0 then -((-q).num / ((-q).den : Int)) else q.num / (q.den : Int)

/-- Accessor `JSONObject.optLong(key, default)`. -/
def joptLong (o : JObj) (k : String) (d : Int) : Int :=
  match jget o k with
  | some (.jint n) => n
  | some (.jnum q) => jlongOfRat q
  | _ => d

/-- Accessor `JSONObject.optDouble(key, default)`. -/
def joptDouble (o : JObj) (k : String) (d : ℚ) : ℚ :=
  match jget o k with
  | some (.jnum q) => q
  | some (.jint n) => (n : ℚ)
  | _ => d

/-- Accessor `JSONObject.getString(key)`: throws (`none`) unless the key holds a
string. -/
def jgetString (o : JObj) (k : String) : Option String :=
  match jget o k with
  | some (.jstr s) => some s
  | _ => none

/-- ASCII upper-casing, character by character: the behaviour of Java
`String.toUpperCase()` on the ASCII strings involved here (the four enum
constant names and their lower/mixed-case spellings). -/
def upperAscii (s : String) : String :=
  String.mk (s.data.map Char.toUpper)

/-- Source `StrobeEffect.fromJson` (lines 82-97).  `genId` stands for the id the
constructor would generate (`generateId()` mixes wall time and randomness, both
external inputs); it is used only when the JSON object carries no `"id"`. -/
def StrobeEffect.fromJson (genId : String) (o : JObj) : Option StrobeEffect :=
  let typeStr := joptString o "type" "STROBE"
  match EffectType.valueOf (upperAscii typeStr) with
  | none => none
  | some ty =>
      let durationMs := joptLong o "durationMs" 1000
      let frequency := joptDouble o "frequency" 10
      let intensity := joptDouble o "intensity" 1
      if jhas o "id" then
        (jgetString o "id").map fun i =>
          { type := ty, durationMs := durationMs, frequency := frequency,
            intensity := intensity, id := i }
      else
        some { type := ty, durationMs := durationMs, frequency := frequency,
               intensity := intensity, id := genId }

/-- Source `StrobeEffect.toJson` (lines 102-110). -/
def StrobeEffect.toJson (e : StrobeEffect) : JObj :=
  [("id", .jstr e.id), ("type", .jstr e.type.name),
   ("durationMs", .jint e.durationMs), ("frequency", .jnum e.frequency),
   ("intensity", .jnum e.intensity)]

/-- Engine states, `StrobeEngine.EngineState`. -/
inductive EngineState
  | IDLE
  | RUNNING
  | PAUSED
  | STOPPED
deriving DecidableEq, Repr

/-- One entry of the observable trace: the five `StrobeEventListener`
notifications, plus the hardware commands (`setTorchMode`) and callback
cancellations, recorded in program order. -/
inductive Action
  | effectStarted (id : String)
  | effectCompleted (id : String)
  | queueEmpty
  | error (msg : String)
  | stateChanged (st : EngineState)
  | setFlash (value : Bool)
  | cancel
deriving DecidableEq, Repr

/-- The callbacks the engine posts on its handler: the completion runnable of
`scheduleNextEffect`, the strobe-loop runnable, and the pulse-end runnable. -/
inductive Callback
  | complete
  | strobe (halfPeriod endTime : Int) (turnOn : Bool)
  | pulse
deriving DecidableEq, Repr

/-- Engine state, from the fields of `StrobeEngine`.  `pending` is the posted
callback with its absolute fire time; `hasRunnable` tracks
`currentStrobeRunnable != null`; `now` is the wall clock
(`System.currentTimeMillis`). -/
structure Engine where
  queue : List StrobeEffect
  currentEffect : Option StrobeEffect
  isFlashOn : Bool
  isPaused : Bool
  isStopped : Bool
  isRunning : Bool
  effectStartTime : Int
  pausedElapsed : Int
  state : EngineState
  pending : Option (Int × Callback)
  hasRunnable : Bool
  hasFlashlight : Bool
  now : Int
  events : List Action
deriving DecidableEq, Repr

/-- Fresh engine as built by the constructor at wall time `t0`, on a device
with a flashlight: empty queue, all flags clear except `isStopped = true`,
state `IDLE`. -/
def mkEngine (t0 : Int) : Engine :=
  { queue := [], currentEffect := none, isFlashOn := false, isPaused := false,
    isStopped := true, isRunning := false, effectStartTime := 0,
    pausedElapsed := 0, state := .IDLE, pending := none, hasRunnable := false,
    hasFlashlight := true, now := t0, events := [] }

/-- Move the wall clock (time passing between external calls). -/
def atTime (t : Int) (s : Engine) : Engine :=
  { s with now := t }

/-- Source `setFlash` (lines 386-399): no-op without a flashlight; otherwise commands
the torch and records the new value (the success path; hardware failure is out
of scope for the engine-level runs). -/
def setFlash (value : Bool) (s : Engine) : Engine :=
  if s.hasFlashlight then
    { s with isFlashOn := value, events := s.events ++ [.setFlash value] }
  else s

/-- Source `setState` (lines 432-435): records the state and notifies the listener. -/
def setState (st : EngineState) (s : Engine) : Engine :=
  { s with state := st, events := s.events ++ [.stateChanged st] }

/-- Handler post, `strobeHandler.postDelayed(runnable, delay)`, together with the assignment
to `currentStrobeRunnable`. -/
def postDelayed (cb : Callback) (delay : Int) (s : Engine) : Engine :=
  { s with pending := some (s.now + delay, cb), hasRunnable := true }

/-- Source `scheduleNextEffect` (lines 369-376) posts the completion runnable. -/
def scheduleNextEffect (delayMs : Int) (s : Engine) : Engine :=
  postDelayed .complete delayMs s

/-- Body of `strobeLoop` (lines 350-367) up to, but excluding, the call to
`completeCurrentEffect`: the returned flag is `true` when the loop terminated
(`now >= endTime`) and the Java code goes on to `completeCurrentEffect`. -/
def strobeLoopAux (halfPeriod endTime : Int) (turnOn : Bool) (s : Engine) :
    Engine × Bool :=
  if s.isStopped || s.isPaused then (s, false)
  else if endTime ≤ s.now then (setFlash false s, true)
  else
    let s1 := setFlash turnOn s
    let nextDelay := min halfPeriod (endTime - s1.now)
    (postDelayed (.strobe halfPeriod endTime (!turnOn)) nextDelay s1, false)

/-- Source `executeEffect` (lines 293-310) dispatching into `executeOnEffect`,
`executeOffEffect`, `executeStrobeEffect`, `executePulseEffect`, up to (but
excluding) any synchronous call to `completeCurrentEffect`; the flag is `true`
exactly when the Java code calls `completeCurrentEffect` next (invalid-strobe
skip, or a strobe whose remaining time is already exhausted). -/
def executeEffectAux (e : StrobeEffect) (remainingMs : Int) (s : Engine) :
    Engine × Bool :=
  let s0 := { s with effectStartTime := s.now }
  match e.type with
  | .ON => (scheduleNextEffect remainingMs (setFlash true s0), false)
  | .OFF => (scheduleNextEffect remainingMs (setFlash false s0), false)
  | .STROBE =>
      let halfPeriod := e.getHalfPeriodMs
      if halfPeriod ≤ 0 then (s0, true)
      else strobeLoopAux halfPeriod (s0.now + remainingMs) true s0
  | .PULSE =>
      let s1 := setFlash true s0
      let halfPeriod := if e.getHalfPeriodMs ≤ 0 then 50 else e.getHalfPeriodMs
      (postDelayed .pulse halfPeriod s1, false)

/-- The `notifyEffectCompleted(currentEffect.getId())` of
`completeCurrentEffect` (lines 378-384): nothing is notified when
`currentEffect` is null. -/
def completedLog (s : Engine) : List Action :=
  match s.currentEffect with
  | some e => [.effectCompleted e.id]
  | none => []

/-- Source `processNextEffect` (lines 274-291) unfolded over the queue: poll the next
effect, notify `effectStarted`, execute it, and — when execution completed the
effect synchronously — notify `effectCompleted` and continue with the rest of
the queue, exactly the `completeCurrentEffect -> processNextEffect` cascade of
the Java code (including its re-check of the stop/pause flags). -/
def processQueue : List StrobeEffect → Engine → Engine
  | [], s =>
      let s1 := { s with currentEffect := none, isRunning := false }
      let s2 := setState .IDLE s1
      { s2 with events := s2.events ++ [.queueEmpty] }
  | e :: rest, s =>
      let s1 := { s with
        queue := rest, currentEffect := some e,
        events := s.events ++ [.effectStarted e.id] }
      let p := executeEffectAux e e.durationMs s1
      if p.2 then
        let s2 := { p.1 with events := p.1.events ++ completedLog p.1 }
        if s2.isStopped || s2.isPaused then s2 else processQueue rest s2
      else p.1

/-- Source `processNextEffect` entry point (line 274 guard plus the queue poll). -/
def processNextEffect (s : Engine) : Engine :=
  if s.isStopped || s.isPaused then s else processQueue s.queue s

/-- Source `completeCurrentEffect` (lines 378-384). -/
def completeCurrentEffect (s : Engine) : Engine :=
  processNextEffect { s with events := s.events ++ completedLog s }

/-- Source `executeEffect` (lines 293-310), completion cascade included. -/
def executeEffect (e : StrobeEffect) (remainingMs : Int) (s : Engine) : Engine :=
  let p := executeEffectAux e remainingMs s
  if p.2 then completeCurrentEffect p.1 else p.1

/-- Source `start` (lines 153-172). -/
def start (s : Engine) : Engine :=
  if !s.hasFlashlight then
    { s with events := s.events ++ [.error "Flashlight not available"] }
  else if s.isRunning && !s.isPaused then s
  else
    let s1 := { s with
      isStopped := false, isPaused := false, isRunning := true }
    processNextEffect (setState .RUNNING s1)

/-- Source `enqueue` (lines 111-119): offer, then auto-start when neither running nor
paused. -/
def enqueue (e : StrobeEffect) (s : Engine) : Engine :=
  let s1 := { s with queue := s.queue ++ [e] }
  if !s1.isRunning && !s1.isPaused then start s1 else s1

/-- Source `enqueueAll` (lines 124-133): offer all, then the same auto-start check. -/
def enqueueAll (es : List StrobeEffect) (s : Engine) : Engine :=
  let s1 := { s with queue := s.queue ++ es }
  if !s1.isRunning && !s1.isPaused then start s1 else s1

/-- Source `pause` (lines 177-197).  Note the program order: the elapsed-time
snapshot, then `setFlash(false)`, then `removeCallbacks`, then the state
change. -/
def pause (s : Engine) : Engine :=
  if !s.isRunning || s.isPaused then s
  else
    let s1 := { s with isPaused := true }
    let s2 := if 0 < s1.effectStartTime then
                { s1 with pausedElapsed := s1.now - s1.effectStartTime }
              else s1
    let s3 := setFlash false s2
    let s4 := if s3.hasRunnable then
                { s3 with pending := none, events := s3.events ++ [.cancel] }
              else s3
    setState .PAUSED s4

/-- Source `resume` (lines 202-220). -/
def resume (s : Engine) : Engine :=
  if !s.isPaused then s
  else
    let s1 := setState .RUNNING { s with isPaused := false }
    match s1.currentEffect with
    | some e =>
        let remaining := e.durationMs - s1.pausedElapsed
        if 0 < remaining then executeEffect e remaining s1
        else processNextEffect s1
    | none => processNextEffect s1

/-- Source `stop` (lines 225-248): flags first, then cancellation, then flash off,
then clearing the current effect, then the state change. -/
def stop (s : Engine) : Engine :=
  let s1 := { s with isStopped := true, isPaused := false, isRunning := false }
  let s2 := { s1 with
    pending := none, hasRunnable := false, events := s1.events ++ [.cancel] }
  let s3 := setFlash false s2
  let s4 := { s3 with
    currentEffect := none, effectStartTime := 0, pausedElapsed := 0 }
  setState .STOPPED s4

/-- Source `strobeLoop` (lines 350-367), completion cascade included; this is the
body of the strobe callback. -/
def strobeLoop (halfPeriod endTime : Int) (turnOn : Bool) (s : Engine) :
    Engine :=
  let p := strobeLoopAux halfPeriod endTime turnOn s
  if p.2 then completeCurrentEffect p.1 else p.1

/-- Fire one posted runnable: the completion runnable re-checks the flags
(lines 370-374), the strobe runnable re-enters `strobeLoop` (line 365), the
pulse runnable turns the flash off and completes (lines 328-331). -/
def fireCallback : Callback → Engine → Engine
  | .complete, s =>
      if !s.isStopped && !s.isPaused then completeCurrentEffect s else s
  | .strobe hp endT ph, s => strobeLoop hp endT ph s
  | .pulse, s => completeCurrentEffect (setFlash false s)

/-- Deliver the pending callback, advancing the clock to its fire time. -/
def step (s : Engine) : Engine :=
  match s.pending with
  | none => s
  | some (t, cb) => fireCallback cb { s with pending := none, now := max s.now t }

/-- Deliver up to `n` pending callbacks (the handler thread draining its
queue); stops as soon as nothing is pending. -/
def run : Nat → Engine → Engine
  | 0, s => s
  | n + 1, s =>
      match s.pending with
      | none => s
      | some _ => run n (step s)

/-- The retry loop of `forceOff` (lines 418-429).  `avail` is
`hasFlashlight && cameraId != null`; `succeeds i` tells whether the i-th
`setTorchMode(cameraId, false)` call returns normally (`false` = it throws,
and the `catch` swallows the exception).  Returns how many `setTorchMode`
attempts were made and whether one of them succeeded (after which the loop
`break`s). -/
def forceOffTry (avail : Bool) (succeeds : Nat → Bool) : Nat → Nat → Nat × Bool
  | _, 0 => (0, false)
  | i, n + 1 =>
      if avail then
        if succeeds i then (1, true)
        else
          let r := forceOffTry avail succeeds (i + 1) n
          (r.1 + 1, r.2)
      else forceOffTry avail succeeds (i + 1) n

/-- Three-iteration retry loop of `forceOff` (`for (int i = 0; i < 3; i++)`). -/
def forceOffAttempts (avail : Bool) (succeeds : Nat → Bool) : Nat × Bool :=
  forceOffTry avail succeeds 0 3

/-- Recognizer for listener `onError` notifications in a trace. -/
def Action.isError : Action → Bool
  | .error _ => true
  | _ => false

/-- Modelled from the spec (refinement comparator for the strobe-phase claim):
the phase un-paused execution of a STROBE effect shows at a given elapsed time
is on during the even half-periods and off during the odd ones. -/
def specPhaseAt (elapsed halfPeriod : Int) : Bool :=
  (elapsed / halfPeriod) % 2 == 0

/-- Concrete ON effect used in the scenarios: 100 ms. -/
def effOn : StrobeEffect :=
  { type := .ON, durationMs := 100, frequency := 0, intensity := 1, id := "e1" }

/-- Second concrete ON effect (distinct id). -/
def effOn2 : StrobeEffect :=
  { type := .ON, durationMs := 100, frequency := 0, intensity := 1, id := "e2" }

/-- Concrete STROBE effect: 1000 ms at 10 Hz (half-period 50 ms). -/
def effStrobe10 : StrobeEffect :=
  { type := .STROBE, durationMs := 1000, frequency := 10, intensity := 1,
    id := "s1" }

/-- Concrete STROBE effect with frequency 0. -/
def effStrobeZero : StrobeEffect :=
  { type := .STROBE, durationMs := 400, frequency := 0, intensity := 1,
    id := "s0" }

/-- Concrete STROBE effect with frequency 501 (just above the 500 Hz
truncation threshold). -/
def eff501 : StrobeEffect :=
  { type := .STROBE, durationMs := 1000, frequency := 501, intensity := 1,
    id := "s5" }

/-- A running engine about to execute `effStrobeZero`. -/
def engZero : Engine :=
  { mkEngine 5 with
    currentEffect := some effStrobeZero, isStopped := false,
    isRunning := true }

/-- A running engine about to execute `eff501`. -/
def eng501 : Engine :=
  { mkEngine 7 with
    currentEffect := some eff501, isStopped := false, isRunning := true }

/-- Lifecycle events: the `effectStarted`/`effectCompleted` notifications. -/
def Action.isLifecycle : Action → Bool
  | .effectStarted _ => true
  | .effectCompleted _ => true
  | _ => false

/-- Projection of a trace to its lifecycle events. -/
def proj (l : List Action) : List Action :=
  l.filter Action.isLifecycle

/-- The lifecycle trace of executing the listed effect ids to completion in
order: started then completed, effect by effect. -/
def goodTrace : List String → List Action
  | [] => []
  | i :: is => .effectStarted i :: .effectCompleted i :: goodTrace is

/-- Ids of a list of effects, in order. -/
def ids (q : List StrobeEffect) : List String :=
  q.map StrobeEffect.id

/-- Quiescent run configuration: no effect in progress, nothing pending,
engine not running; the lifecycle trace so far is exactly the completed
prefix `done`. -/
def InvA (s : Engine) (done : List String) : Prop :=
  s.isPaused = false ∧ s.isRunning = false ∧ s.hasFlashlight = true ∧
    s.currentEffect = none ∧ s.pending = none ∧ proj s.events = goodTrace done

/-- Busy run configuration: effect `e` is in progress (started but not
completed), one callback pending, engine running. -/
def InvB (s : Engine) (done : List String) (e : StrobeEffect) : Prop :=
  s.isPaused = false ∧ s.isStopped = false ∧ s.isRunning = true ∧
    s.hasFlashlight = true ∧ s.currentEffect = some e ∧
    s.pending.isSome = true ∧
    proj s.events = goodTrace done ++ [.effectStarted e.id]

/-- Run invariant for pause-free, stop-free executions: `order` is the full
insertion order; the engine is either quiescent or busy, and the lifecycle
trace plus the work left always reconstructs `order`. -/
def Inv (order : List String) (s : Engine) : Prop :=
  (∃ done, InvA s done ∧ order = done ++ ids s.queue) ∨
    (∃ done e, InvB s done e ∧ order = done ++ e.id :: ids s.queue)

/-- Engine state reached by a sequence of `enqueueAll` batches followed by
letting the handler thread drain for `fuel` callbacks. -/
def runScenario (batches : List (List StrobeEffect)) (fuel : Nat) (t0 : Int) :
    Engine :=
  run fuel (batches.foldl (fun s b => enqueueAll b s) (mkEngine t0))

end Flicker

namespace Flicker

/-- Claim C1 (evidence of the violation): running a queue whose single (and
last) effect has kind ON to completion reaches `getState() = IDLE` with the
actuator's last commanded value still `true` — `processNextEffect` transitions
to IDLE on queue exhaustion without commanding the flash off. -/
theorem C1_idle_after_on_flash_still_on :
    (run 3 (enqueue effOn (mkEngine 1))).state = EngineState.IDLE ∧
      (run 3 (enqueue effOn (mkEngine 1))).isFlashOn = true := by
  decide

/-- Claim C2 (evidence of the violation): a STROBE effect (1000 ms, 10 Hz,
half-period 50 ms) started at t = 1, paused at t = 61 (elapsed 60, which
un-paused execution spends in the off half-period, as `specPhaseAt` shows)
and resumed at t = 2061 re-enters the duty cycle with the flash commanded on:
`resume` passes the constant initial phase `true` to the strobe loop instead
of recomputing the phase from the elapsed time. -/
theorem C2_resume_restarts_at_on_phase :
    (resume (atTime 2061 (pause (atTime 61
        (step (enqueue effStrobe10 (mkEngine 1))))))).isFlashOn = true ∧
      effStrobe10.getHalfPeriodMs = 50 ∧
      specPhaseAt 60 effStrobe10.getHalfPeriodMs = false := by
  decide

/-- Claim C4 (evidence of the violation): `pause()` called while RUNNING an ON
effect appends exactly the actions flash-off, cancel-callbacks, state-change —
i.e. it forces the actuator off first and removes the pending callback only
afterwards, the reverse of the order the claim requires. -/
theorem C4_pause_flash_off_precedes_cancel :
    (pause (atTime 50 (enqueue effOn (mkEngine 1)))).events =
      (enqueue effOn (mkEngine 1)).events ++
        [Action.setFlash false, Action.cancel,
         Action.stateChanged EngineState.PAUSED] := by
  decide

/-- Counterexample to claim C3 as stated: executing a STROBE effect with
frequency 0 emits no listener `error` event anywhere in the run (the invalid
frequency is only logged), although the effect is completed and the queue
advances. -/
theorem C3_counterexample :
    ((enqueue effStrobeZero (mkEngine 1)).events.any Action.isError) = false ∧
      Action.effectCompleted "s0" ∈ (enqueue effStrobeZero (mkEngine 1)).events := by
  decide

/-- Counterexample to claim C5 as stated: after an explicit `stop()` the
engine is STOPPED, yet a subsequent `enqueue` does implicitly begin execution
(state becomes RUNNING and the new effect starts). -/
theorem C5_counterexample :
    (stop (run 3 (enqueue effOn (mkEngine 1)))).state = EngineState.STOPPED ∧
      (enqueue effOn2 (stop (run 3 (enqueue effOn (mkEngine 1))))).state =
        EngineState.RUNNING ∧
      Action.effectStarted "e2" ∈
        (enqueue effOn2 (stop (run 3 (enqueue effOn (mkEngine 1))))).events := by
  decide

end Flicker

namespace Flicker

lemma proj_append (l1 l2 : List Action) : proj (l1 ++ l2) = proj l1 ++ proj l2 := by
  simp [proj]

lemma aux_queue (e : StrobeEffect) (r : Int) (s : Engine) :
    (executeEffectAux e r s).1.queue = s.queue := by
  obtain ⟨ty, d, fq, it, i⟩ := e
  cases ty <;>
    simp only [executeEffectAux, strobeLoopAux, setFlash, scheduleNextEffect,
      postDelayed] <;> split_ifs <;> rfl

lemma aux_current (e : StrobeEffect) (r : Int) (s : Engine) :
    (executeEffectAux e r s).1.currentEffect = s.currentEffect := by
  obtain ⟨ty, d, fq, it, i⟩ := e
  cases ty <;>
    simp only [executeEffectAux, strobeLoopAux, setFlash, scheduleNextEffect,
      postDelayed] <;> split_ifs <;> rfl

lemma aux_paused (e : StrobeEffect) (r : Int) (s : Engine) :
    (executeEffectAux e r s).1.isPaused = s.isPaused := by
  obtain ⟨ty, d, fq, it, i⟩ := e
  cases ty <;>
    simp only [executeEffectAux, strobeLoopAux, setFlash, scheduleNextEffect,
      postDelayed] <;> split_ifs <;> rfl

lemma aux_stopped (e : StrobeEffect) (r : Int) (s : Engine) :
    (executeEffectAux e r s).1.isStopped = s.isStopped := by
  obtain ⟨ty, d, fq, it, i⟩ := e
  cases ty <;>
    simp only [executeEffectAux, strobeLoopAux, setFlash, scheduleNextEffect,
      postDelayed] <;> split_ifs <;> rfl

lemma aux_running (e : StrobeEffect) (r : Int) (s : Engine) :
    (executeEffectAux e r s).1.isRunning = s.isRunning := by
  obtain ⟨ty, d, fq, it, i⟩ := e
  cases ty <;>
    simp only [executeEffectAux, strobeLoopAux, setFlash, scheduleNextEffect,
      postDelayed] <;> split_ifs <;> rfl

lemma aux_flashlight (e : StrobeEffect) (r : Int) (s : Engine) :
    (executeEffectAux e r s).1.hasFlashlight = s.hasFlashlight := by
  obtain ⟨ty, d, fq, it, i⟩ := e
  cases ty <;>
    simp only [executeEffectAux, strobeLoopAux, setFlash, scheduleNextEffect,
      postDelayed] <;> split_ifs <;> rfl

lemma aux_events (e : StrobeEffect) (r : Int) (s : Engine) :
    ∃ t, (executeEffectAux e r s).1.events = s.events ++ t ∧ proj t = [] := by
  obtain ⟨ty, d, fq, it, i⟩ := e
  cases ty <;>
    simp only [executeEffectAux, strobeLoopAux, setFlash, scheduleNextEffect,
      postDelayed] <;> split_ifs <;>
    first
      | exact ⟨_, rfl, rfl⟩
      | exact ⟨[], (List.append_nil _).symm, rfl⟩

lemma aux_pending_done (e : StrobeEffect) (r : Int) (s : Engine)
    (h : (executeEffectAux e r s).2 = true) :
    (executeEffectAux e r s).1.pending = s.pending := by
  obtain ⟨ty, d, fq, it, i⟩ := e
  cases ty <;>
    simp only [executeEffectAux, strobeLoopAux, setFlash, scheduleNextEffect,
      postDelayed] at h ⊢ <;> split_ifs at h ⊢ <;> simp_all

lemma aux_pending_busy (e : StrobeEffect) (r : Int) (s : Engine)
    (h1 : s.isStopped = false) (h2 : s.isPaused = false)
    (h : (executeEffectAux e r s).2 = false) :
    (executeEffectAux e r s).1.pending.isSome = true := by
  obtain ⟨ty, d, fq, it, i⟩ := e
  cases ty <;>
    simp only [executeEffectAux, strobeLoopAux, setFlash, scheduleNextEffect,
      postDelayed, h1, h2] at h ⊢ <;> split_ifs at h ⊢ <;> simp_all

end Flicker

namespace Flicker

lemma proj_nil : proj ([] : List Action) = [] := rfl

lemma proj_cons (a : Action) (l : List Action) :
    proj (a :: l) = if a.isLifecycle then a :: proj l else proj l := by
  simp [proj, List.filter_cons]

lemma proj_one_started (i : String) :
    proj [Action.effectStarted i] = [Action.effectStarted i] := rfl

lemma proj_one_completed (i : String) :
    proj [Action.effectCompleted i] = [Action.effectCompleted i] := rfl

lemma proj_one_stateChanged (st : EngineState) :
    proj [Action.stateChanged st] = [] := rfl

lemma proj_one_queueEmpty : proj [Action.queueEmpty] = [] := rfl

lemma proj_one_error (m : String) : proj [Action.error m] = [] := rfl

lemma proj_one_setFlash (b : Bool) : proj [Action.setFlash b] = [] := rfl

lemma proj_one_cancel : proj [Action.cancel] = [] := rfl

lemma goodTrace_append (a b : List String) :
    goodTrace (a ++ b) = goodTrace a ++ goodTrace b := by
  induction a with
  | nil => rfl
  | cons x xs ih => simp [goodTrace, ih]

lemma ids_cons (e : StrobeEffect) (q : List StrobeEffect) :
    ids (e :: q) = e.id :: ids q := rfl

lemma processQueue_inv (q : List StrobeEffect) :
    ∀ (s : Engine) (done : List String),
      s.isPaused = false → s.isStopped = false → s.isRunning = true →
      s.hasFlashlight = true → s.queue = q → s.pending = none →
      proj s.events = goodTrace done →
      Inv (done ++ ids q) (processQueue q s) := by
  induction q with
  | nil =>
      intro s done hp hst hr hfl hq hpend hproj
      left
      refine ⟨done, ⟨hp, rfl, hfl, rfl, hpend, ?_⟩, ?_⟩
      · show proj ((s.events ++ [Action.stateChanged EngineState.IDLE]) ++
          [Action.queueEmpty]) = goodTrace done
        simp [proj_append, hproj, proj_cons, proj_nil, Action.isLifecycle]
      · show done ++ ids [] = done ++ ids s.queue
        simp [hq, ids]
  | cons e rest ih =>
      intro s done hp hst hr hfl hq hpend hproj
      simp only [processQueue]
      have hR8 : proj ({ s with queue := rest, currentEffect := some e, events := s.events ++ [Action.effectStarted e.id] } : Engine).events = goodTrace done ++ [Action.effectStarted e.id] := by
        show proj (s.events ++ [Action.effectStarted e.id]) = _
        simp [proj_append, hproj, proj_one_started]
      set S1 : Engine := { s with queue := rest, currentEffect := some e, events := s.events ++ [Action.effectStarted e.id] } with hS1
      have hR1 : S1.isPaused = false := hp
      have hR2 : S1.isStopped = false := hst
      have hR3 : S1.isRunning = true := hr
      have hR4 : S1.hasFlashlight = true := hfl
      have hR5 : S1.queue = rest := rfl
      have hR6 : S1.pending = none := hpend
      have hR7 : S1.currentEffect = some e := rfl
      obtain ⟨t, het, hpt⟩ := aux_events e e.durationMs S1
      have hcur := aux_current e e.durationMs S1
      have hstp := aux_stopped e e.durationMs S1
      have hpau := aux_paused e e.durationMs S1
      have hrun := aux_running e e.durationMs S1
      have hfl2 := aux_flashlight e e.durationMs S1
      have hqu := aux_queue e e.durationMs S1
      rw [hR7] at hcur
      rw [hR2] at hstp
      rw [hR1] at hpau
      rw [hR3] at hrun
      rw [hR4] at hfl2
      rw [hR5] at hqu
      split
      case isTrue hdone =>
        have hpd := aux_pending_done e e.durationMs S1 hdone
        rw [hR6] at hpd
        rw [if_neg (by simp [hstp, hpau])]
        have hproj2 : proj ((executeEffectAux e e.durationMs S1).1.events ++
            completedLog (executeEffectAux e e.durationMs S1).1) =
            goodTrace (done ++ [e.id]) := by
          simp [proj_append, het, hS1, completedLog, hcur, hpt, proj_cons,
            proj_nil, Action.isLifecycle, goodTrace_append, goodTrace, hproj]
        rw [(show done ++ ids (e :: rest) = (done ++ [e.id]) ++ ids rest by
          simp [ids_cons])]
        exact ih _ (done ++ [e.id]) hpau hstp hrun hfl2 hqu hpd hproj2
      case isFalse hdone =>
        have hpb := aux_pending_busy e e.durationMs S1 hR2 hR1
          (by simpa using hdone)
        right
        refine ⟨done, e, ⟨hpau, hstp, hrun, hfl2, hcur, hpb, ?_⟩, ?_⟩
        · simp [het, hS1, proj_append, hpt, proj_cons, proj_nil,
            Action.isLifecycle, hproj]
        · simp [ids_cons, hqu]

end Flicker

namespace Flicker

lemma ids_append (a b : List StrobeEffect) : ids (a ++ b) = ids a ++ ids b := by
  simp [ids]

lemma setFlash_eq (b : Bool) (s : Engine) (hfl : s.hasFlashlight = true) :
    setFlash b s =
      { s with isFlashOn := b, events := s.events ++ [Action.setFlash b] } := by
  unfold setFlash
  rw [if_pos hfl]

lemma completeCurrent_inv (s : Engine) (done : List String) (e : StrobeEffect)
    (hp : s.isPaused = false) (hst : s.isStopped = false)
    (hr : s.isRunning = true) (hfl : s.hasFlashlight = true)
    (hcur : s.currentEffect = some e) (hpend : s.pending = none)
    (hproj : proj s.events = goodTrace done ++ [Action.effectStarted e.id]) :
    Inv (done ++ e.id :: ids s.queue) (completeCurrentEffect s) := by
  have hred : completeCurrentEffect s =
      processQueue s.queue { s with events := s.events ++ completedLog s } := by
    unfold completeCurrentEffect processNextEffect
    rw [if_neg (by simp [hst, hp])]
  rw [hred]
  have key := processQueue_inv s.queue
    { s with events := s.events ++ completedLog s } (done ++ [e.id])
    hp hst hr hfl rfl hpend
    (by
      show proj (s.events ++ completedLog s) = _
      simp [completedLog, hcur, proj_append, hproj, proj_one_completed,
        goodTrace_append, goodTrace])
  simpa [List.append_assoc] using key

lemma firePulse_inv (s : Engine) (done : List String) (e : StrobeEffect)
    (hp : s.isPaused = false) (hst : s.isStopped = false)
    (hr : s.isRunning = true) (hfl : s.hasFlashlight = true)
    (hcur : s.currentEffect = some e) (hpend : s.pending = none)
    (hproj : proj s.events = goodTrace done ++ [Action.effectStarted e.id]) :
    Inv (done ++ e.id :: ids s.queue) (fireCallback .pulse s) := by
  show Inv _ (completeCurrentEffect (setFlash false s))
  rw [setFlash_eq false s hfl]
  exact completeCurrent_inv _ done e hp hst hr hfl hcur hpend
    (by
      show proj (s.events ++ [Action.setFlash false]) = _
      simp [proj_append, hproj, proj_one_setFlash])

lemma strobeLoop_inv (s : Engine) (done : List String) (e : StrobeEffect)
    (hper endT : Int) (ph : Bool)
    (hp : s.isPaused = false) (hst : s.isStopped = false)
    (hr : s.isRunning = true) (hfl : s.hasFlashlight = true)
    (hcur : s.currentEffect = some e) (hpend : s.pending = none)
    (hproj : proj s.events = goodTrace done ++ [Action.effectStarted e.id]) :
    Inv (done ++ e.id :: ids s.queue) (strobeLoop hper endT ph s) := by
  unfold strobeLoop strobeLoopAux
  rw [hst, hp]
  simp only [Bool.or_self, Bool.false_eq_true, if_false]
  by_cases hend : endT ≤ s.now
  · rw [if_pos hend]
    show Inv _ (completeCurrentEffect (setFlash false s))
    rw [setFlash_eq false s hfl]
    exact completeCurrent_inv _ done e hp hst hr hfl hcur hpend
      (by
        show proj (s.events ++ [Action.setFlash false]) = _
        simp [proj_append, hproj, proj_one_setFlash])
  · rw [if_neg hend]
    show Inv _ (postDelayed _ _ (setFlash ph s))
    rw [setFlash_eq ph s hfl]
    right
    refine ⟨done, e, ⟨hp, hst, hr, hfl, hcur, rfl, ?_⟩, rfl⟩
    show proj (s.events ++ [Action.setFlash ph]) = _
    simp [proj_append, hproj, proj_one_setFlash]

lemma fireComplete_inv (s : Engine) (done : List String) (e : StrobeEffect)
    (hp : s.isPaused = false) (hst : s.isStopped = false)
    (hr : s.isRunning = true) (hfl : s.hasFlashlight = true)
    (hcur : s.currentEffect = some e) (hpend : s.pending = none)
    (hproj : proj s.events = goodTrace done ++ [Action.effectStarted e.id]) :
    Inv (done ++ e.id :: ids s.queue) (fireCallback .complete s) := by
  show Inv _ (if !s.isStopped && !s.isPaused then completeCurrentEffect s else s)
  rw [hst, hp]
  simp only [Bool.not_false, Bool.and_self, if_true]
  exact completeCurrent_inv s done e hp hst hr hfl hcur hpend hproj

lemma fire_inv (s : Engine) (done : List String) (e : StrobeEffect)
    (cb : Callback)
    (hp : s.isPaused = false) (hst : s.isStopped = false)
    (hr : s.isRunning = true) (hfl : s.hasFlashlight = true)
    (hcur : s.currentEffect = some e) (hpend : s.pending = none)
    (hproj : proj s.events = goodTrace done ++ [Action.effectStarted e.id]) :
    Inv (done ++ e.id :: ids s.queue) (fireCallback cb s) := by
  cases cb with
  | complete => exact fireComplete_inv s done e hp hst hr hfl hcur hpend hproj
  | strobe hper endT ph =>
      exact strobeLoop_inv s done e hper endT ph hp hst hr hfl hcur hpend hproj
  | pulse => exact firePulse_inv s done e hp hst hr hfl hcur hpend hproj

lemma step_inv (order : List String) (s : Engine) (h : Inv order s) :
    Inv order (step s) := by
  rcases h with ⟨done, hA, horder⟩ | ⟨done, e, hB, horder⟩
  · have hstep : step s = s := by
      unfold step
      rw [hA.2.2.2.2.1]
    rw [hstep]
    exact Or.inl ⟨done, hA, horder⟩
  · obtain ⟨hp, hst, hr, hfl, hcur, hpend, hproj⟩ := hB
    obtain ⟨⟨tf, cb⟩, hpd⟩ := Option.isSome_iff_exists.mp hpend
    have hstep : step s = fireCallback cb
        { s with pending := none, now := max s.now tf } := by
      unfold step
      rw [hpd]
    rw [hstep, horder]
    exact fire_inv { s with pending := none, now := max s.now tf } done e cb
      hp hst hr hfl hcur rfl hproj

lemma run_inv (n : Nat) (order : List String) (s : Engine) (h : Inv order s) :
    Inv order (run n s) := by
  induction n generalizing s with
  | zero => exact h
  | succ m ih =>
      show Inv order (match s.pending with
        | none => s
        | some _ => run m (step s))
      cases hpd : s.pending with
      | none => exact h
      | some p => exact ih (step s) (step_inv order s h)

end Flicker

namespace Flicker

lemma start_inv (s : Engine) (done : List String)
    (_hp : s.isPaused = false) (hr : s.isRunning = false)
    (hfl : s.hasFlashlight = true) (hpend : s.pending = none)
    (hproj : proj s.events = goodTrace done) :
    Inv (done ++ ids s.queue) (start s) := by
  unfold start
  split
  case isTrue hcond => simp [hfl] at hcond
  split
  case isTrue hcond2 => simp [hr] at hcond2
  have hred : processNextEffect (setState .RUNNING
      { s with isStopped := false, isPaused := false, isRunning := true }) =
      processQueue s.queue (setState .RUNNING
        { s with isStopped := false, isPaused := false, isRunning := true }) := by
    unfold processNextEffect setState
    rw [if_neg (by simp)]
  rw [hred]
  exact processQueue_inv s.queue _ done rfl rfl rfl hfl rfl hpend
    (by
      show proj (s.events ++ [Action.stateChanged EngineState.RUNNING]) = _
      simp [proj_append, hproj, proj_one_stateChanged])

lemma enqueueAll_inv (es : List StrobeEffect) (order : List String) (s : Engine)
    (h : Inv order s) : Inv (order ++ ids es) (enqueueAll es s) := by
  rcases h with ⟨done, hA, horder⟩ | ⟨done, e, hB, horder⟩
  · obtain ⟨hp, hr, hfl, hcur, hpend, hproj⟩ := hA
    unfold enqueueAll
    dsimp only
    split
    case isFalse hcond => simp [hr, hp] at hcond
    have key := start_inv { s with queue := s.queue ++ es } done
      hp hr hfl hpend hproj
    rw [horder]
    rw [(show (done ++ ids s.queue) ++ ids es = done ++ ids (s.queue ++ es)
      from by simp [ids_append])]
    exact key
  · obtain ⟨hp, hst, hr, hfl, hcur, hpend, hproj⟩ := hB
    unfold enqueueAll
    dsimp only
    split
    case isTrue hcond => simp [hr] at hcond
    right
    refine ⟨done, e, ⟨hp, hst, hr, hfl, hcur, hpend, hproj⟩, ?_⟩
    show order ++ ids es = done ++ e.id :: ids (s.queue ++ es)
    rw [horder]
    simp [ids_append]

lemma mkEngine_inv (t0 : Int) : Inv [] (mkEngine t0) :=
  Or.inl ⟨[], ⟨rfl, rfl, rfl, rfl, rfl, rfl⟩, rfl⟩

lemma foldl_enqueueAll_inv (batches : List (List StrobeEffect)) :
    ∀ (order : List String) (s : Engine), Inv order s →
      Inv (order ++ ids batches.flatten)
        (batches.foldl (fun s b => enqueueAll b s) s) := by
  induction batches with
  | nil => intro order s h; simpa [ids] using h
  | cons b bs ih =>
      intro order s h
      have key := ih (order ++ ids b) (enqueueAll b s) (enqueueAll_inv b order s h)
      simpa [ids_append, List.append_assoc] using key

lemma Inv_partial_trace (order : List String) (s : Engine) (h : Inv order s) :
    proj s.events <+: goodTrace order := by
  rcases h with ⟨done, hA, horder⟩ | ⟨done, e, hB, horder⟩
  · refine ⟨goodTrace (ids s.queue), ?_⟩
    rw [hA.2.2.2.2.2, horder, goodTrace_append]
  · refine ⟨Action.effectCompleted e.id :: goodTrace (ids s.queue), ?_⟩
    rw [hB.2.2.2.2.2.2, horder, goodTrace_append]
    simp [goodTrace]

lemma Inv_complete (order : List String) (s : Engine) (h : Inv order s)
    (hq : s.queue = []) (hc : s.currentEffect = none) :
    proj s.events = goodTrace order := by
  rcases h with ⟨done, hA, horder⟩ | ⟨done, e, hB, horder⟩
  · rw [hA.2.2.2.2.2, horder, hq]
    simp [ids]
  · rw [hB.2.2.2.2.1] at hc
    exact absurd hc (by simp)

end Flicker

namespace Flicker

lemma getPeriodMs_eq_floor (e : StrobeEffect) (hf0 : 0 < e.frequency) :
    e.getPeriodMs = ⌊(1000 : ℚ) / e.frequency⌋ := by
  have hnum : 0 < e.frequency.num := Rat.num_pos.mpr hf0
  have hne : (e.frequency.num : ℚ) ≠ 0 := Int.cast_ne_zero.mpr hnum.ne'
  have h0 := Rat.num_div_den e.frequency
  rw [div_eq_iff (by positivity)] at h0
  have h1 : (1000 : ℚ) / e.frequency =
      (1000 * (e.frequency.den : ℚ)) / (e.frequency.num : ℚ) := by
    rw [div_eq_div_iff (by positivity) hne, h0]
    ring
  have hcast : ((e.frequency.num.toNat : ℕ) : ℚ) = (e.frequency.num : ℚ) := by
    exact_mod_cast Int.toNat_of_nonneg hnum.le
  have h2 : ⌊(1000 : ℚ) / e.frequency⌋ =
      1000 * (e.frequency.den : Int) / e.frequency.num := by
    rw [(show (1000 : ℚ) / e.frequency =
        ((1000 * (e.frequency.den : ℤ) : ℤ) : ℚ) /
          ((e.frequency.num.toNat : ℕ) : ℚ) from by
          rw [hcast]
          push_cast
          exact h1),
      Rat.floor_intCast_div_natCast]
    rw [Int.toNat_of_nonneg hnum.le]
  rw [h2]
  simp [StrobeEffect.getPeriodMs, not_le.mpr hf0]

lemma halfPeriod_zero_of_freq_nonpos (e : StrobeEffect)
    (h : e.frequency ≤ 0) : e.getHalfPeriodMs = 0 := by
  simp [StrobeEffect.getHalfPeriodMs, StrobeEffect.getPeriodMs, h]

lemma halfPeriod_zero_of_freq_gt_500 (e : StrobeEffect)
    (h : 500 < e.frequency) : e.getHalfPeriodMs = 0 := by
  have hf0 : 0 < e.frequency := lt_trans (by norm_num) h
  have hnum : 0 < e.frequency.num := Rat.num_pos.mpr hf0
  have hlt : 500 * (e.frequency.den : Int) < e.frequency.num := by
    have h2 : (500 : ℚ) * e.frequency.den < e.frequency.num := by
      rw [← Rat.num_div_den e.frequency, lt_div_iff₀ (by positivity)] at h
      exact h
    exact_mod_cast h2
  have hper : e.getPeriodMs = 1000 * (e.frequency.den : Int) / e.frequency.num := by
    simp [StrobeEffect.getPeriodMs, not_le.mpr hf0]
  have hlt2 : 1000 * (e.frequency.den : Int) / e.frequency.num < 2 :=
    (Int.ediv_lt_iff_lt_mul hnum).mpr (by omega)
  have hnn : 0 ≤ 1000 * (e.frequency.den : Int) / e.frequency.num :=
    Int.ediv_nonneg (by positivity) hnum.le
  rw [StrobeEffect.getHalfPeriodMs, hper]
  omega

lemma executeEffect_skip (e : StrobeEffect) (r : Int) (s : Engine)
    (ht : e.type = .STROBE) (hhp : e.getHalfPeriodMs ≤ 0) :
    executeEffect e r s =
      completeCurrentEffect { s with effectStartTime := s.now } := by
  unfold executeEffect executeEffectAux
  rw [ht]
  dsimp only
  rw [if_pos hhp]
  rfl

lemma executeEffect_skip_log (e : StrobeEffect) (r : Int) (s : Engine)
    (hc : s.currentEffect = some e) (ht : e.type = .STROBE)
    (hhp : e.getHalfPeriodMs ≤ 0) :
    executeEffect e r s = processNextEffect { s with effectStartTime := s.now, events := s.events ++ [Action.effectCompleted e.id] } := by
  rw [executeEffect_skip e r s ht hhp]
  unfold completeCurrentEffect
  congr 1
  simp [completedLog, hc]

end Flicker

namespace Flicker

/-- Claim C7. -/
theorem C7_fifo_event_order (batches : List (List StrobeEffect)) (fuel : Nat)
    (t0 : Int) :
    proj (runScenario batches fuel t0).events <+:
      goodTrace (ids batches.flatten) ∧
    ((runScenario batches fuel t0).queue = [] →
      (runScenario batches fuel t0).currentEffect = none →
      proj (runScenario batches fuel t0).events =
        goodTrace (ids batches.flatten)) := by
  have hInv : Inv (ids batches.flatten) (runScenario batches fuel t0) := by
    unfold runScenario
    refine run_inv fuel _ _ ?_
    simpa using foldl_enqueueAll_inv batches [] (mkEngine t0) (mkEngine_inv t0)
  exact ⟨Inv_partial_trace _ _ hInv, fun hq hc => Inv_complete _ _ hInv hq hc⟩

/-- Witness for C7. -/
theorem C7_fifo_event_order_witness :
    (runScenario [[effOn], [effOn2]] 5 1).queue = [] ∧
      (runScenario [[effOn], [effOn2]] 5 1).currentEffect = none ∧
      proj (runScenario [[effOn], [effOn2]] 5 1).events =
        goodTrace (ids ([[effOn], [effOn2]] : List (List StrobeEffect)).flatten) :=
  ⟨by decide, by decide,
    (C7_fifo_event_order [[effOn], [effOn2]] 5 1).2 (by decide) (by decide)⟩

/-- Claim C3 (amended). -/
theorem C3_invalid_strobe_skips (e : StrobeEffect) (r : Int) (s : Engine)
    (hc : s.currentEffect = some e) (ht : e.type = .STROBE)
    (hf : e.frequency ≤ 0) :
    executeEffect e r s = processNextEffect { s with effectStartTime := s.now, events := s.events ++ [Action.effectCompleted e.id] } :=
  executeEffect_skip_log e r s hc ht
    (le_of_eq (halfPeriod_zero_of_freq_nonpos e hf))

/-- Witness for C3. -/
theorem C3_invalid_strobe_skips_witness :
    engZero.currentEffect = some effStrobeZero ∧
      effStrobeZero.frequency ≤ 0 ∧
      executeEffect effStrobeZero 400 engZero =
        processNextEffect { engZero with effectStartTime := engZero.now, events := engZero.events ++ [Action.effectCompleted effStrobeZero.id] } :=
  ⟨by decide, by decide,
    C3_invalid_strobe_skips effStrobeZero 400 engZero (by decide) (by decide)
      (by decide)⟩

/-- Claim C10. -/
theorem C10_high_frequency_strobe_skipped (e : StrobeEffect) (r : Int)
    (s : Engine) (hf : 500 < e.frequency) (ht : e.type = .STROBE)
    (hc : s.currentEffect = some e) :
    e.getPeriodMs = ⌊(1000 : ℚ) / e.frequency⌋ ∧
      e.getHalfPeriodMs = 0 ∧
      executeEffect e r s = processNextEffect { s with effectStartTime := s.now, events := s.events ++ [Action.effectCompleted e.id] } := by
  have hf0 : (0 : ℚ) < e.frequency := lt_trans (by norm_num) hf
  refine ⟨getPeriodMs_eq_floor e hf0, halfPeriod_zero_of_freq_gt_500 e hf, ?_⟩
  exact executeEffect_skip_log e r s hc ht
    (le_of_eq (halfPeriod_zero_of_freq_gt_500 e hf))

/-- Witness for C10. -/
theorem C10_high_frequency_strobe_skipped_witness :
    (500 : ℚ) < eff501.frequency ∧
      eff501.getHalfPeriodMs = 0 ∧
      executeEffect eff501 100 eng501 =
        processNextEffect { eng501 with effectStartTime := eng501.now, events := eng501.events ++ [Action.effectCompleted eff501.id] } :=
  ⟨by decide,
    (C10_high_frequency_strobe_skipped eff501 100 eng501
      (by decide) (by decide) (by decide)).2.1,
    (C10_high_frequency_strobe_skipped eff501 100 eng501
      (by decide) (by decide) (by decide)).2.2⟩

/-- Claim C8. -/
theorem C8_forceOff_retry_contract :
    ∀ succeeds : Nat → Bool,
      forceOffAttempts true succeeds =
        (if succeeds 0 then (1, true)
         else if succeeds 1 then (2, true)
         else if succeeds 2 then (3, true)
         else (3, false)) ∧
      (forceOffAttempts true succeeds).1 ≤ 3 ∧
      (forceOffAttempts false succeeds).1 = 0 := by
  intro f
  cases h0 : f 0 <;> cases h1 : f 1 <;> cases h2 : f 2 <;>
    simp [forceOffAttempts, forceOffTry, h0, h1, h2]

/-- Claim C9. -/
theorem C9_json_roundtrip_and_defaults :
    (∀ (e : StrobeEffect) (g : String),
        StrobeEffect.fromJson g e.toJson = some e) ∧
      (∀ g : String, StrobeEffect.fromJson g [] =
        some { type := .STROBE, durationMs := 1000, frequency := 10,
               intensity := 1, id := g }) := by
  constructor
  · rintro ⟨ty, d, fq, it, i⟩ g
    cases ty <;> rfl
  · intro g
    rfl

end Flicker

namespace Flicker

/-- Claim C5 (amended). -/
theorem C5_autostart_characterization (s : Engine) (e : StrobeEffect) :
    ((s.isRunning = false ∧ s.isPaused = false) →
      enqueue e s = start { s with queue := s.queue ++ [e] }) ∧
    ((s.isRunning = true ∨ s.isPaused = true) →
      enqueue e s = { s with queue := s.queue ++ [e] }) := by
  constructor
  · rintro ⟨hr, hp⟩
    unfold enqueue
    dsimp only
    rw [if_pos (by simp [hr, hp])]
  · intro h
    unfold enqueue
    dsimp only
    rw [if_neg (by rcases h with h | h <;> simp [h])]

/-- Witness for C5. -/
theorem C5_autostart_characterization_witness :
    ((stop (run 3 (enqueue effOn (mkEngine 1)))).isRunning = false ∧
      (stop (run 3 (enqueue effOn (mkEngine 1)))).isPaused = false ∧
      enqueue effOn2 (stop (run 3 (enqueue effOn (mkEngine 1)))) =
        start { stop (run 3 (enqueue effOn (mkEngine 1))) with queue := (stop (run 3 (enqueue effOn (mkEngine 1)))).queue ++ [effOn2] }) ∧
    ((pause (atTime 50 (enqueue effOn (mkEngine 1)))).isPaused = true ∧
      enqueue effOn2 (pause (atTime 50 (enqueue effOn (mkEngine 1)))) =
        { pause (atTime 50 (enqueue effOn (mkEngine 1))) with queue := (pause (atTime 50 (enqueue effOn (mkEngine 1)))).queue ++ [effOn2] }) :=
  ⟨⟨by decide, by decide,
      (C5_autostart_characterization (stop (run 3 (enqueue effOn (mkEngine 1)))) effOn2).1
        ⟨by decide, by decide⟩⟩,
    ⟨by decide,
      (C5_autostart_characterization (pause (atTime 50 (enqueue effOn (mkEngine 1)))) effOn2).2
        (Or.inr (by decide))⟩⟩

/-- Claim C6. -/
theorem C6_pause_resume_schedules_remaining (ty : EffectType)
    (t0 D ep tr : Int) (hty : ty = .ON ∨ ty = .OFF) (ht0 : 0 < t0)
    (_hep : 0 < ep) (hD : ep < D) :
    (resume (atTime tr (pause (atTime (t0 + ep) (enqueue
        { type := ty, durationMs := D, frequency := 0, intensity := 1,
          id := "x" } (mkEngine t0)))))).pending =
      some (tr + (D - ep), Callback.complete) := by
  have hrem : (0 : Int) < D - ep := by omega
  rcases hty with rfl | rfl <;>
    simp [enqueue, mkEngine, start, processNextEffect, processQueue,
      executeEffectAux, scheduleNextEffect, postDelayed, setFlash, setState,
      atTime, pause, resume, executeEffect, completeCurrentEffect,
      completedLog, ht0, hrem, add_sub_cancel_left]

/-- Witness for C6. -/
theorem C6_pause_resume_schedules_remaining_witness :
    ((EffectType.ON = EffectType.ON ∨ EffectType.ON = EffectType.OFF) ∧
      (0 : Int) < 1 ∧ (0 : Int) < 40 ∧ (40 : Int) < 100) ∧
      (resume (atTime 500 (pause (atTime (1 + 40) (enqueue
          { type := EffectType.ON, durationMs := 100, frequency := 0,
            intensity := 1, id := "x" } (mkEngine 1)))))).pending =
        some (500 + (100 - 40), Callback.complete) :=
  ⟨⟨Or.inl rfl, by decide, by decide, by decide⟩,
    C6_pause_resume_schedules_remaining EffectType.ON 1 100 40 500
      (Or.inl rfl) (by decide) (by decide) (by decide)⟩

end Flicker
